import Mathlib

/-!
Verification of the beer-garden operation-routing and synchronization core
against its natural-language specification.

The embedding covers:
  * the STOMP server module (`send_message`, `send_error_msg`,
    `OperationListener.on_message`, `Connection.connect`) from
    `beer_garden/api/stomp/server.py`;
  * the job PATCH handler (`JobAPI.patch`) from `brew_view/handlers/v1/job.py`;
  * the user federation sync (`update_user`, `_import_users`, `user_sync`,
    `_filter_role_assigments_by_garden`) from `beer_garden/user.py`.

Python dictionaries are modelled as association lists (first key wins),
Python string/None truthiness as explicit `Option`/emptiness checks, and the
mutable object store (needed for the frame-effect claim about `copy`) as an
explicit reference heap.
-/

/-! ## Header dictionaries -/

/-- Transport headers: a Python dict modelled as an association list. -/
abbrev Headers := List (String × String)

/-- Dictionary lookup (`d.get(k)` / `d[k]`): first matching key wins. -/
def hget (h : Headers) (k : String) : Option String :=
  match h with
  | [] => none
  | (k', v) :: rest => if k' = k then some v else hget rest k

/-- Python membership test `k in d`. -/
def hasKey (h : Headers) (k : String) : Bool :=
  (hget h k).isSome

/-- Python truthiness of an optional string: `None` and `""` are falsy. -/
def truthyStr : Option String → Bool
  | none => false
  | some s => !s.isEmpty

/-! ## STOMP server (`beer_garden/api/stomp/server.py`) -/

/-- One physical send on the broker connection: destination, body, headers. -/
structure Send where
  destination : String
  body : String
  headers : Headers
deriving DecidableEq

/-- Modelled from the spec: `process_send_message` lives in
`beer_garden/api/stomp/processors`, which is not part of the visible source.
Per the spec, the codec encodes any valid Result to a wire body and produces
response headers carrying the payload type discriminator `model_class`.
Messages are already abstract strings here, so encoding is the identity. -/
def process_send_message (message : String) : String × Headers :=
  (message, [("model_class", "result")])

/-- Modelled from the spec: `append_headers` lives in
`beer_garden/api/stomp/processors`, which is not part of the visible source.
Per the spec, it merges the response-header, garden-header and request-header
layers, with response and garden headers taking precedence to identify sender
and payload type, and always forwards a correlation id from the request. -/
def append_headers (response_headers request_headers garden_headers : Headers) :
    Headers :=
  response_headers ++ garden_headers ++
    request_headers.filter (fun p => p.1 == "correlation-id")

/-- `send_message` from `server.py`: encode the message, merge headers, and —
only when the connection is up AND a default send destination is configured —
send to the request's `reply-to` destination if that header is present, else
to the default send destination.  Python `None` request headers behave as an
empty dict (`request_headers or \x7b\x7d`). -/
def send_message (message : String) (garden_headers : Headers)
    (conn_connected : Bool) (send_destination : Option String)
    (request_headers : Headers) : List Send :=
  let body := (process_send_message message).1
  let response_headers :=
    append_headers (process_send_message message).2 request_headers garden_headers
  if conn_connected && truthyStr send_destination then
    if hasKey request_headers "reply-to" then
      [⟨(hget request_headers "reply-to").getD "", body, response_headers⟩]
    else
      [⟨send_destination.getD "", body, response_headers⟩]
  else []

/-- `send_error_msg` from `server.py`: build error headers with
`model_class = "error_message"`, merge layers, and — whenever the connection
is up — send to `reply-to` if present, else to the default send destination
if one is configured, else do nothing. -/
def send_error_msg (error_msg : String) (request_headers : Headers)
    (conn_connected : Bool) (send_destination : Option String)
    (garden_headers : Headers) : List Send :=
  let error_headers :=
    append_headers [("model_class", "error_message")] request_headers garden_headers
  if conn_connected then
    if hasKey request_headers "reply-to" then
      [⟨(hget request_headers "reply-to").getD "", error_msg, error_headers⟩]
    else if truthyStr send_destination then
      [⟨send_destination.getD "", error_msg, error_headers⟩]
    else []
  else []

/-- Outcome of the body of `OperationListener.on_message`'s try block, as far
as it ran: the decode-and-route phase completed, yielding the router's result
(`none` models a falsy result such as Python `None`); or decode/routing
raised an exception with the given message; or routing returned a truthy
result but the success-path `send_message` call itself raised (the try block
wraps it too) — an interrupted send is not recorded as completed. -/
inductive RouteOutcome where
  | ok (result : Option String)
  | err (msg : String)
  | sendRaised (msg : String)
deriving DecidableEq

/-- `OperationListener.on_message`: on a successful route with a truthy
result, reply via `send_message` (no garden headers); on a falsy result do
nothing; on any exception — from decode, from routing, or from the
success-path `send_message` call, all inside the one try block — reply via
`send_error_msg` (no garden headers) and log.  Returns the completed sends. -/
def on_message (headers : Headers) (conn_connected : Bool)
    (send_destination : Option String) (outcome : RouteOutcome) : List Send :=
  match outcome with
  | .ok none => []
  | .ok (some result) =>
      send_message result [] conn_connected send_destination headers
  | .err e =>
      send_error_msg e headers conn_connected send_destination []
  | .sendRaised e =>
      send_error_msg e headers conn_connected send_destination []

/-- Configuration of a `Connection` relevant to `connect()`:
the `host_and_ports` list of (host, port) pairs, the subscribe destination
and the default send destination. -/
structure ConnectionCfg where
  host_and_ports : List (String × Nat)
  subscribe_destination : Option String
  send_destination : Option String
deriving DecidableEq

/-- Broker actions performed by `Connection.connect`. -/
inductive ConnectAction where
  | connectBroker
  | subscribe (dest : String)
deriving DecidableEq

/-- `Connection.connect` from `server.py`: only when `host_and_ports` is
non-empty, its first entry has a truthy host and a truthy (non-zero) port,
AND the subscribe destination is truthy, attempt the broker connection and
then subscribe to the subscribe destination. -/
def Connection.connect (c : ConnectionCfg) : List ConnectAction :=
  match c.host_and_ports with
  | [] => []
  | (host, port) :: _ =>
    if !host.isEmpty && port != 0 && truthyStr c.subscribe_destination then
      ConnectAction.connectBroker ::
        (match c.subscribe_destination with
         | some d => if !d.isEmpty then [ConnectAction.subscribe d] else []
         | none => [])
    else []

/-- Whether `connect()` attempts a broker connection at all. -/
def connect_attempted (c : ConnectionCfg) : Bool :=
  (Connection.connect c).contains ConnectAction.connectBroker

/-! ## Job PATCH handler (`brew_view/handlers/v1/job.py`) -/

/-- One parsed patch instruction: `operation`, `path`, `value`. -/
structure PatchOp where
  operation : String
  path : String
  value : String
deriving DecidableEq

/-- A call against the external scheduler backend (thrift client). -/
inductive BackendCall where
  | pauseJob (job_id : String)
  | resumeJob (job_id : String)
deriving DecidableEq

/-- Python `str(op.value).upper()` restricted to ASCII letters, written over
the character list so that it reduces by computation. -/
def upperAscii (s : String) : String :=
  ⟨s.data.map Char.toUpper⟩

/-- Validation of a single patch operation, mirroring the nested checks of
`JobAPI.patch`: on success the backend call to make, on failure the
`ModelValidationError` message raised. -/
def opCheck (job_id : String) (op : PatchOp) : Except String BackendCall :=
  if op.operation = "update" then
    if op.path = "/status" then
      if upperAscii op.value = "PAUSED" then Except.ok (BackendCall.pauseJob job_id)
      else if upperAscii op.value = "RUNNING" then
        Except.ok (BackendCall.resumeJob job_id)
      else Except.error ("Unsupported status value " ++ op.value)
    else Except.error ("Unsupported path value " ++ op.path)
  else Except.error ("Unsupported operation " ++ op.operation)

/-- A patch operation `JobAPI.patch` accepts without raising. -/
def opValid (op : PatchOp) : Bool :=
  op.operation = "update" && op.path = "/status" &&
    (upperAscii op.value = "PAUSED" || upperAscii op.value = "RUNNING")

/-- The backend call a valid operation triggers. -/
def opCall (job_id : String) (op : PatchOp) : BackendCall :=
  if upperAscii op.value = "PAUSED" then BackendCall.pauseJob job_id
  else BackendCall.resumeJob job_id

/-- The loop body of `JobAPI.patch`: operations are validated and applied one
at a time, in order; each valid operation immediately triggers its backend
call and overwrites `response`; the first invalid operation raises
`ModelValidationError`, leaving earlier calls already made.  Returns the
backend calls performed and either the raised error or the final value of
`response` (`none` models `response` never having been bound, which the
handler would then try to write). -/
def patchLoop (backend : BackendCall → String) (job_id : String) :
    List PatchOp → Option String → List BackendCall × Except String (Option String)
  | [], response => ([], Except.ok response)
  | op :: rest, _ =>
    match opCheck job_id op with
    | Except.error msg => ([], Except.error msg)
    | Except.ok call =>
      let next := patchLoop backend job_id rest (some (backend call))
      (call :: next.1, next.2)

/-- `JobAPI.patch`: run the operation list against an initially unbound
`response`. -/
def JobAPI.patch (backend : BackendCall → String) (job_id : String)
    (ops : List PatchOp) : List BackendCall × Except String (Option String) :=
  patchLoop backend job_id ops none

/-! ## User federation sync (`beer_garden/user.py`) -/

/-- The domain of a role assignment: a scope (`"Global"`, `"Garden"` or
`"System"`) and an identifiers dict. -/
structure RoleDomain where
  scope : String
  identifiers : List (String × String)
deriving DecidableEq

/-- A role assignment: a role name plus its domain. -/
structure RoleAssignment where
  role : String
  domain : RoleDomain
deriving DecidableEq

/-- A stored `User` document, restricted to the fields the sync flow touches. -/
structure User where
  username : String
  password : Option String
  role_assignments : List RoleAssignment
deriving DecidableEq

/-- A stored `RemoteUser` shadow document. -/
structure RemoteUser where
  garden : String
  username : String
  role_assignments : List RoleAssignment
  updated_at : Nat
deriving DecidableEq

/-- A `Garden` document, restricted to the fields the sync flow reads. -/
structure Garden where
  name : String
  namespaces : List String
deriving DecidableEq

/-- Modelled from the spec: `User.set_password` (in
`beer_garden/db/mongo/models`, not part of the visible source) derives a
stored credential from a plaintext password.  Modelled as a deterministic
injective tagging. -/
def set_password_hash (p : String) : String :=
  "hashed:" ++ p

/-- Whether `assignment` passes the filter predicate of
`_filter_role_assigments_by_garden` for a garden owning `namespaces`:
scope `Global`, or scope `Garden` with `identifiers.get("name")` in the
namespaces, or scope `System` with `identifiers.get("namespace")` in the
namespaces. -/
def assignmentRelevant (namespaces : List String) (a : RoleAssignment) : Bool :=
  a.domain.scope = "Global" ||
    (a.domain.scope = "Garden" &&
      (match hget a.domain.identifiers "name" with
       | some v => namespaces.contains v
       | none => false)) ||
    (a.domain.scope = "System" &&
      (match hget a.domain.identifiers "namespace" with
       | some v => namespaces.contains v
       | none => false))

/-- `_filter_role_assigments_by_garden`, as a pure value transform: the
returned (copied) user keeps every field but narrows `role_assignments` to
the assignments relevant to the garden's namespaces. -/
def _filter_role_assigments_by_garden (user : User) (garden : Garden) : User :=
  { user with
      role_assignments :=
        user.role_assignments.filter (assignmentRelevant garden.namespaces) }

/-- The payload for one user as loaded by `UserPatchSchema` in
`_import_users`.  `username` is `none` when the serialized dict lacks the
`"username"` key (read before the try block); `schema_valid = false` when
`UserPatchSchema(strict=True).load` raises `ValidationError`; `password` and
`hashed_password` are `none` when absent from the loaded data. -/
structure SerializedUser where
  username : Option String
  schema_valid : Bool
  password : Option String
  hashed_password : Option String
  role_assignments : List RoleAssignment
deriving DecidableEq

/-- `update_user` from `user.py`, restricted to the kwargs the sync flow
passes (`password`, `role_assignments`) plus the `hashed_password` argument:
a `password` kwarg is hashed via `set_password` unless a `hashed_password`
is supplied, in which case the raw kwarg value is set and then overwritten;
`role_assignments` is set verbatim; finally a supplied `hashed_password` is
stored as-is. -/
def update_user (user : User) (hashed_password : Option String)
    (password : Option String) (role_assignments : List RoleAssignment) : User :=
  let user :=
    match password with
    | some p =>
        if hashed_password = none then
          { user with password := some (set_password_hash p) }
        else
          { user with password := some p }
    | none => user
  let user := { user with role_assignments := role_assignments }
  match hashed_password with
  | some h => { user with password := some h }
  | none => user

/-- The stored user collection: saves append, updates rewrite in place. -/
abbrev UserStore := List User

/-- `User.objects.get(username=name)` (first matching document). -/
def findUser (s : UserStore) (name : String) : Option User :=
  s.find? (fun u => u.username == name)

/-- Saving an updated document: every stored user with the given username is
rewritten to `u`. -/
def replaceUser (s : UserStore) (name : String) (u : User) : UserStore :=
  s.map (fun v => if v.username == name then u else v)

/-- One iteration of the `_import_users` loop on one serialized record.
`none` models an uncaught exception aborting the whole batch: the
`serialized_user["username"]` read happens before the try block, so a
missing username key raises `KeyError` past the `ValidationError` handler.
A schema `ValidationError` is caught and the record skipped.  Otherwise:
an existing user (by username) is updated via `update_user`; a missing user
is created (`User(username=...)` then saved, then updated) only when the
incoming role-assignment list is non-empty; else the record is skipped. -/
def importOne (s : UserStore) (r : SerializedUser) : Option UserStore :=
  match r.username with
  | none => none
  | some name =>
    if r.schema_valid then
      match findUser s name with
      | some u =>
          some (replaceUser s name
            (update_user u r.hashed_password r.password r.role_assignments))
      | none =>
          if r.role_assignments.length > 0 then
            let u0 : User := ⟨name, none, []⟩
            some (s ++
              [update_user u0 r.hashed_password r.password r.role_assignments])
          else some s
    else some s

/-- `_import_users`: fold `importOne` over the batch; the `Bool` is true when
an uncaught exception aborted the batch (remaining records unprocessed). -/
def _import_users (s : UserStore) : List SerializedUser → UserStore × Bool
  | [] => (s, false)
  | r :: rs =>
    match importOne s r with
    | none => (s, true)
    | some s' => _import_users s' rs

/-- The database state the sync flow can touch. -/
structure DbState where
  users : UserStore
  remote_users : List RemoteUser
deriving DecidableEq

/-- `user_sync`: import the serialized users into the local store, then
re-push via `initiate_user_sync` — which only reads the store and routes
`USER_SYNC` operations to remote gardens, writing nothing locally (the
`USER_UPDATED` events published by `update_user` are ignored by the local
`handle_event`, which drops events originating from its own garden). -/
def user_sync (db : DbState) (serialized_users : List SerializedUser) :
    DbState × Bool :=
  let r := _import_users db.users serialized_users
  ({ db with users := r.1 }, r.2)

/-! ### Object heap for the `copy`-based filtering (frame effect)

`_filter_role_assigments_by_garden` operates on a live Python object: it
calls `copy(user)` and rebinds `role_assignments` on the copy.  To state that
the original object is not mutated, users live in an explicit reference
heap. -/

/-- A heap of live `User` objects addressed by references. -/
abbrev Heap := List (Nat × User)

/-- Dereference. -/
def heapGet (h : Heap) (r : Nat) : Option User :=
  match h.find? (fun p => p.1 == r) with
  | some p => some p.2
  | none => none

/-- A reference unused by the heap. -/
def freshRef (h : Heap) : Nat :=
  (h.map Prod.fst).foldr max 0 + 1

/-- `_filter_role_assigments_by_garden` on the heap: dereference `user`,
allocate `copy(user)` as a fresh object, rebind the copy's
`role_assignments` to the filtered list, and return the new heap and the
reference to the copy.  (On a dangling reference nothing happens.) -/
def filterOnHeap (h : Heap) (r : Nat) (garden : Garden) : Heap × Nat :=
  match heapGet h r with
  | none => (h, r)
  | some u =>
    let nr := freshRef h
    ((nr, _filter_role_assigments_by_garden u garden) :: h, nr)

/-! ## Shared lemmas -/

theorem hget_isSome_iff (h : Headers) (k : String) :
    (hget h k).isSome = true ↔ ∃ v, hget h k = some v := by
  cases hv : hget h k <;> simp [hv]

theorem contains_iff_mem {α : Type} [BEq α] [LawfulBEq α] (l : List α) (v : α) :
    l.contains v = true ↔ v ∈ l :=
  List.elem_iff

/-! ## Concrete fixtures used by the testable-property claims -/

/-- A globally scoped role assignment. -/
def exGlobal : RoleAssignment := ⟨"admin", ⟨"Global", []⟩⟩

/-- A garden-scoped role assignment for garden name `b`. -/
def exGardenB : RoleAssignment := ⟨"admin", ⟨"Garden", [("name", "b")]⟩⟩

/-- A system-scoped role assignment for namespace `ns1`. -/
def exSystemNs1 : RoleAssignment := ⟨"admin", ⟨"System", [("namespace", "ns1")]⟩⟩

/-- The spec's own wording of relevance of a role assignment to a garden:
scope `Global`, or `Garden` with identifier among the garden's namespaces,
or `System` with namespace among the garden's namespaces. -/
def relevantSpec (g : Garden) (a : RoleAssignment) : Prop :=
  a.domain.scope = "Global" ∨
    (a.domain.scope = "Garden" ∧
      ∃ v, hget a.domain.identifiers "name" = some v ∧ v ∈ g.namespaces) ∨
    (a.domain.scope = "System" ∧
      ∃ v, hget a.domain.identifiers "namespace" = some v ∧ v ∈ g.namespaces)

theorem assignmentRelevant_iff (g : Garden) (a : RoleAssignment) :
    assignmentRelevant g.namespaces a = true ↔ relevantSpec g a := by
  unfold assignmentRelevant relevantSpec
  cases hn : hget a.domain.identifiers "name" <;>
    cases hs : hget a.domain.identifiers "namespace" <;>
      simp [hn, hs, contains_iff_mem, or_assoc]

/-- Claim C5: the garden-filtered role-assignment set contains exactly the
assignments whose scope is `Global`, or `Garden` with identifier in the
garden's namespaces, or `System` with namespace in the garden's namespaces;
and on the spec's concrete example (`Global`, `Garden b`, `System ns1`
against namespaces `ns1`) the filtered set is exactly the `Global` and
`System ns1` assignments. -/
theorem C5_filter_role_assignments_exact :
    (∀ (user : User) (garden : Garden) (a : RoleAssignment),
        a ∈ (_filter_role_assigments_by_garden user garden).role_assignments ↔
          a ∈ user.role_assignments ∧ relevantSpec garden a) ∧
    (_filter_role_assigments_by_garden
          ⟨"alice", none, [exGlobal, exGardenB, exSystemNs1]⟩
          ⟨"g", ["ns1"]⟩).role_assignments = [exGlobal, exSystemNs1] := by
  constructor
  · intro user garden a
    simp [_filter_role_assigments_by_garden, List.mem_filter,
      assignmentRelevant_iff]
  · decide

/-- Claim C9 (confirmed): when routing completes without an exception but
returns a falsy result, the listener sends nothing at all, whatever the
headers (in particular with a `reply-to` present), connection state and
default destination. -/
theorem C9_falsy_result_no_send (headers : Headers) (conn_connected : Bool)
    (send_destination : Option String) :
    on_message headers conn_connected send_destination
      (RouteOutcome.ok none) = [] := rfl


/-- Claim C8 counterexample: a connection configured purely for outbound
publishing — valid broker endpoint `("localhost", 61613)`, a send
destination, but no subscribe destination — never attempts the broker
connection, although the claim says valid endpoints alone suffice for
publish-only connections. -/
theorem C8_counterexample_publish_only :
    connect_attempted ⟨[("localhost", 61613)], none, some "events"⟩ = false := by
  decide

/-- Claim C8 (amended): `connect()` attempts a broker connection iff the
endpoint list is non-empty with a truthy first host and port AND the
subscribe destination is non-empty; a connection with no subscribe
destination never attempts the connection through `connect()`, even with
valid endpoints. -/
theorem C8_connect_attempt_iff (c : ConnectionCfg) :
    connect_attempted c = true ↔
      (∃ host port rest, c.host_and_ports = (host, port) :: rest ∧
          host ≠ "" ∧ port ≠ 0) ∧
        truthyStr c.subscribe_destination = true := by
  obtain ⟨hp, sub, snd⟩ := c
  cases hp with
  | nil => simp [connect_attempted, Connection.connect]
  | cons p rest =>
    obtain ⟨host, port⟩ := p
    by_cases hcond : (!host.isEmpty && port != 0 && truthyStr sub) = true
    · have hparts := hcond
      simp only [Bool.and_eq_true, Bool.not_eq_true', bne_iff_ne] at hparts
      obtain ⟨⟨hhost, hport⟩, hsub⟩ := hparts
      have hne : host ≠ "" := by
        intro he
        rw [he] at hhost
        exact absurd hhost (by decide)
      constructor
      · intro _
        exact ⟨⟨host, port, rest, rfl, hne, hport⟩, hsub⟩
      · intro _
        simp [connect_attempted, Connection.connect, hcond]
    · constructor
      · intro hatt
        exact absurd hatt (by simp [connect_attempted, Connection.connect, hcond])
      · rintro ⟨⟨h2, p2, r2, heq, hh, hp2⟩, hsub⟩
        exfalso
        apply hcond
        obtain ⟨he1, he2⟩ : h2 = host ∧ p2 = port := by
          have := List.head_eq_of_cons_eq heq.symm
          exact ⟨congrArg Prod.fst this, congrArg Prod.snd this⟩
        rw [he1] at hh
        rw [he2] at hp2
        have hie : host.isEmpty = false :=
          Bool.eq_false_iff.mpr (fun hemp => hh ((String.isEmpty_iff host).mp hemp))
        simp only [Bool.and_eq_true, Bool.not_eq_true', bne_iff_ne]
        exact ⟨⟨hie, hp2⟩, hsub⟩

/-- Claim C1 counterexample: with a connected connection, an inbound message
carrying `reply-to = "X"` but no configured default send destination, a
successful routing produces NO outbound send at all, while a handler failure
on the same configuration does send to `"X"` — so the success path drops the
reply and the two paths do not resolve the destination by the same rule. -/
theorem C1_counterexample_success_needs_default :
    on_message [("reply-to", "X")] true none (RouteOutcome.ok (some "r")) = []
      ∧ (on_message [("reply-to", "X")] true none
          (RouteOutcome.err "boom")).map Send.destination = ["X"] := by
  constructor
  · rfl
  · rfl

/-- Claim C1 (amended): when the connection is connected AND a default send
destination is configured, an inbound message whose headers carry
`reply-to = X` produces exactly one outbound send addressed to `X`, both on
a successful routing (truthy result) and on a handler failure; without a
configured default send destination the success path sends nothing while the
error path still sends to `X`. -/
theorem C1_reply_to_addressing (hdrs : Headers) (x : String)
    (send_destination : Option String) (result errm : String)
    (hrt : hget hdrs "reply-to" = some x)
    (hdest : truthyStr send_destination = true) :
    (on_message hdrs true send_destination
        (RouteOutcome.ok (some result))).map Send.destination = [x] ∧
    (on_message hdrs true send_destination
        (RouteOutcome.err errm)).map Send.destination = [x] := by
  have hk : hasKey hdrs "reply-to" = true := by simp [hasKey, hrt]
  constructor
  · simp [on_message, send_message, hk, hrt, hdest]
  · simp [on_message, send_error_msg, hk, hrt]

/-- Witness for claim C1 at a concrete input. -/
theorem C1_reply_to_addressing_witness :
    (on_message [("reply-to", "X")] true (some "default/dest")
        (RouteOutcome.ok (some "r"))).map Send.destination = ["X"] ∧
    (on_message [("reply-to", "X")] true (some "default/dest")
        (RouteOutcome.err "e")).map Send.destination = ["X"] :=
  C1_reply_to_addressing [("reply-to", "X")] "X" (some "default/dest")
    "r" "e" (by decide) (by decide)

/-- Claim C7 counterexample: the error path does not resolve its destination
by the same rule as the success path: with a connected connection, headers
`reply-to = "Q"` and no default send destination, the error reply goes out
to `"Q"` while a successful routing on the same configuration sends
nothing. -/
theorem C7_counterexample_destination_rule_differs :
    (on_message [("reply-to", "Q")] true none
        (RouteOutcome.err "oops")).map Send.destination = ["Q"] ∧
    on_message [("reply-to", "Q")] true none (RouteOutcome.ok (some "out")) = []
    := by
  constructor
  · rfl
  · rfl

theorem send_error_msg_shape (e : String) (hdrs : Headers)
    (conn_connected : Bool) (send_destination : Option String) (s : Send)
    (hs : s ∈ send_error_msg e hdrs conn_connected send_destination []) :
    hget s.headers "model_class" = some "error_message" ∧
    s.body = e ∧
    s.destination = ((hget hdrs "reply-to").getD (send_destination.getD "")) := by
  unfold send_error_msg at hs
  by_cases hc : conn_connected = true
  · rw [hc] at hs
    simp only [if_true] at hs
    by_cases hk : hasKey hdrs "reply-to" = true
    · rw [if_pos hk] at hs
      simp only [List.mem_singleton] at hs
      subst hs
      refine ⟨rfl, rfl, ?_⟩
      obtain ⟨v, hv⟩ := (hget_isSome_iff hdrs "reply-to").mp hk
      simp [hv]
    · rw [if_neg hk] at hs
      by_cases hd : truthyStr send_destination = true
      · rw [if_pos hd] at hs
        simp only [List.mem_singleton] at hs
        subst hs
        refine ⟨rfl, rfl, ?_⟩
        have : hget hdrs "reply-to" = none := by
          cases hv : hget hdrs "reply-to" with
          | none => rfl
          | some v => exact absurd (by simp [hasKey, hv]) hk
        simp [this]
      · rw [if_neg hd] at hs
        exact absurd hs (List.not_mem_nil s)
  · have : conn_connected = false := by
      cases conn_connected
      · rfl
      · exact absurd rfl hc
    rw [this] at hs
    simp at hs

/-- Claim C7 (amended): the handler never raises — every exception arising
from decode, routing, or the success-path reply (the try block wraps the
`send_message` call too) is caught, logged, and converted into an
error-reply attempt — and every send that attempt performs carries
`model_class = "error_message"`, the exception text as body, and a
destination resolved by the error path's own rule: `reply-to` if present,
else the default send destination, else no-op.  This rule agrees with the
success path whenever a default send destination is configured, and unlike
the success path still sends to `reply-to` without one. -/
theorem C7_error_reply_shape (hdrs : Headers) (conn_connected : Bool)
    (send_destination : Option String) (e : String) (outcome : RouteOutcome)
    (ho : outcome = RouteOutcome.err e ∨ outcome = RouteOutcome.sendRaised e)
    (s : Send)
    (hs : s ∈ on_message hdrs conn_connected send_destination outcome) :
    hget s.headers "model_class" = some "error_message" ∧
    s.body = e ∧
    s.destination = ((hget hdrs "reply-to").getD (send_destination.getD "")) := by
  cases ho with
  | inl h =>
      subst h
      exact send_error_msg_shape e hdrs conn_connected send_destination s hs
  | inr h =>
      subst h
      exact send_error_msg_shape e hdrs conn_connected send_destination s hs

/-- Witness for claim C7 at a concrete input: a success-path reply that
raised. -/
theorem C7_error_reply_shape_witness :
    hget (Send.headers ⟨"Z", "bad",
        append_headers [("model_class", "error_message")] [("reply-to", "Z")] []⟩)
        "model_class" = some "error_message" ∧
    Send.body ⟨"Z", "bad",
        append_headers [("model_class", "error_message")] [("reply-to", "Z")] []⟩
      = "bad" ∧
    Send.destination ⟨"Z", "bad",
        append_headers [("model_class", "error_message")] [("reply-to", "Z")] []⟩
      = ((hget [("reply-to", "Z")] "reply-to").getD ((none : Option String).getD ""))
    :=
  C7_error_reply_shape [("reply-to", "Z")] true none "bad"
    (RouteOutcome.sendRaised "bad") (Or.inr rfl)
    ⟨"Z", "bad",
      append_headers [("model_class", "error_message")] [("reply-to", "Z")] []⟩
    (by decide)

/-! ## Claim C2: job PATCH semantics -/

/-- The `ModelValidationError` message an invalid operation raises. -/
def opErrMsg (op : PatchOp) : String :=
  if op.operation = "update" then
    if op.path = "/status" then "Unsupported status value " ++ op.value
    else "Unsupported path value " ++ op.path
  else "Unsupported operation " ++ op.operation

theorem opCheck_ok_of_valid (job_id : String) (op : PatchOp)
    (h : opValid op = true) :
    opCheck job_id op = Except.ok (opCall job_id op) := by
  unfold opValid at h
  simp only [Bool.and_eq_true, Bool.or_eq_true, decide_eq_true_eq] at h
  obtain ⟨⟨hop, hpath⟩, hval⟩ := h
  unfold opCheck opCall
  rw [if_pos hop, if_pos hpath]
  cases hval with
  | inl hp => simp [hp]
  | inr hr =>
      by_cases hp : upperAscii op.value = "PAUSED"
      · simp [hp]
      · simp [hp, hr]

theorem opCheck_error_of_invalid (job_id : String) (op : PatchOp)
    (h : opValid op = false) :
    opCheck job_id op = Except.error (opErrMsg op) := by
  unfold opValid at h
  simp only [Bool.and_eq_false_iff, Bool.or_eq_false_iff, decide_eq_false_iff_not]
    at h
  unfold opCheck opErrMsg
  by_cases hop : op.operation = "update"
  · rw [if_pos hop, if_pos hop]
    by_cases hpath : op.path = "/status"
    · rw [if_pos hpath, if_pos hpath]
      have hval : ¬upperAscii op.value = "PAUSED" ∧ ¬upperAscii op.value = "RUNNING" := by
        rcases h with h | h
        · rcases h with h | h
          · exact absurd hop h
          · exact absurd hpath h
        · simpa using h
      rw [if_neg hval.1, if_neg hval.2]
    · rw [if_neg hpath, if_neg hpath]
  · rw [if_neg hop, if_neg hop]

/-- Latest bound value of the handler's `response` variable after the given
backend responses, starting from `resp`. -/
def lastOr (l : List String) (resp : Option String) : Option String :=
  match l.getLast? with
  | some r => some r
  | none => resp

theorem lastOr_cons (b : String) (l : List String) (resp : Option String) :
    lastOr (b :: l) resp = lastOr l (some b) := by
  cases l with
  | nil => rfl
  | cons c cs =>
      unfold lastOr
      rw [List.getLast?_cons_cons]
      cases h : (c :: cs).getLast? with
      | some r => rfl
      | none => exact absurd (List.getLast?_eq_none_iff.mp h) (List.cons_ne_nil c cs)

theorem patchLoop_all_valid (backend : BackendCall → String) (job_id : String)
    (ops : List PatchOp) (hops : ∀ op ∈ ops, opValid op = true) :
    ∀ resp, patchLoop backend job_id ops resp =
      (ops.map (opCall job_id),
        Except.ok (lastOr (ops.map (fun op => backend (opCall job_id op))) resp))
    := by
  induction ops with
  | nil => intro resp; rfl
  | cons op rest ih =>
      intro resp
      have hop := hops op (List.mem_cons_self op rest)
      have hrest : ∀ o ∈ rest, opValid o = true :=
        fun o ho => hops o (List.mem_cons_of_mem op ho)
      unfold patchLoop
      rw [opCheck_ok_of_valid job_id op hop]
      simp only [ih hrest]
      rw [List.map_cons, List.map_cons, lastOr_cons]

theorem patchLoop_prefix_invalid (backend : BackendCall → String)
    (job_id : String) (pre : List PatchOp) (bad : PatchOp)
    (rest : List PatchOp) (hpre : ∀ op ∈ pre, opValid op = true)
    (hbad : opValid bad = false) :
    ∀ resp, patchLoop backend job_id (pre ++ bad :: rest) resp =
      (pre.map (opCall job_id), Except.error (opErrMsg bad)) := by
  induction pre with
  | nil =>
      intro resp
      rw [List.nil_append]
      simp only [patchLoop]
      rw [opCheck_error_of_invalid job_id bad hbad]
      rfl
  | cons op pre' ih =>
      intro resp
      have hop := hpre op (List.mem_cons_self op pre')
      have hpre' : ∀ o ∈ pre', opValid o = true :=
        fun o ho => hpre o (List.mem_cons_of_mem op ho)
      rw [List.cons_append]
      unfold patchLoop
      rw [opCheck_ok_of_valid job_id op hop]
      simp only [ih hpre']
      rw [List.map_cons]

/-- Claim C2 counterexample: a list whose first operation is valid and whose
second is invalid (`value = "STOPPED"`) raises `ModelValidationError`, but
the backend HAS been called (`pauseJob`) for the first operation — the claim
says no backend call is made for any operation of such a list. -/
theorem C2_counterexample_backend_called_before_error :
    JobAPI.patch (fun c => match c with
        | BackendCall.pauseJob j => "paused:" ++ j
        | BackendCall.resumeJob j => "resumed:" ++ j) "job1"
      [⟨"update", "/status", "paused"⟩, ⟨"update", "/status", "STOPPED"⟩] =
    ([BackendCall.pauseJob "job1"],
      Except.error "Unsupported status value STOPPED") := by
  rfl

/-- Claim C2 (amended): operations are validated and applied strictly in
order.  A list whose operations are all valid is applied in order and the
final backend response is returned.  The first invalid operation (bad kind,
bad path, or value other than case-insensitive PAUSED/RUNNING) raises
`ModelValidationError` and triggers no backend call for itself or any later
operation — but the backend HAS already been called for every valid
operation preceding it. -/
theorem C2_patch_in_order_first_invalid_raises (backend : BackendCall → String)
    (job_id : String) (ops pre rest : List PatchOp) (bad : PatchOp)
    (hops : ∀ op ∈ ops, opValid op = true)
    (hpre : ∀ op ∈ pre, opValid op = true)
    (hbad : opValid bad = false) :
    JobAPI.patch backend job_id ops =
      (ops.map (opCall job_id),
        Except.ok (lastOr (ops.map (fun op => backend (opCall job_id op))) none))
    ∧ JobAPI.patch backend job_id (pre ++ bad :: rest) =
      (pre.map (opCall job_id), Except.error (opErrMsg bad)) :=
  ⟨patchLoop_all_valid backend job_id ops hops none,
    patchLoop_prefix_invalid backend job_id pre bad rest hpre hbad none⟩

/-- Witness for claim C2 at a concrete input. -/
theorem C2_patch_in_order_first_invalid_raises_witness :
    JobAPI.patch (fun _ => "resp") "j2" [⟨"update", "/status", "RUNNING"⟩] =
      ([⟨"update", "/status", "RUNNING"⟩].map (opCall "j2"),
        Except.ok (lastOr ([⟨"update", "/status", "RUNNING"⟩].map
          (fun op => (fun _ => "resp") (opCall "j2" op))) none))
    ∧ JobAPI.patch (fun _ => "resp") "j2"
        ([⟨"update", "/status", "RUNNING"⟩] ++ ⟨"update", "/bad", "x"⟩ :: []) =
      ([⟨"update", "/status", "RUNNING"⟩].map (opCall "j2"),
        Except.error (opErrMsg ⟨"update", "/bad", "x"⟩)) :=
  C2_patch_in_order_first_invalid_raises (fun _ => "resp") "j2"
    [⟨"update", "/status", "RUNNING"⟩] [⟨"update", "/status", "RUNNING"⟩] []
    ⟨"update", "/bad", "x"⟩ (by decide) (by decide) (by decide)

/-! ## Claims C4 and C6: per-record import behavior -/

/-- Claim C4 (confirmed): for a schema-valid serialized user with a present
username — if a local user with that username exists it is updated in place
(and a pre-hashed credential is stored as-is, never re-hashed); if none
exists and the incoming role-assignment set is non-empty, a new user is
created; if none exists and the set is empty, the record is skipped and the
store is unchanged. -/
theorem C4_import_record_behavior (s : UserStore) (r : SerializedUser)
    (name : String) (hname : r.username = some name)
    (hvalid : r.schema_valid = true) :
    (∀ u, findUser s name = some u →
        importOne s r = some (replaceUser s name
          (update_user u r.hashed_password r.password r.role_assignments))) ∧
    (∀ (u : User) (hp : String),
        (update_user u (some hp) r.password r.role_assignments).password
          = some hp) ∧
    (findUser s name = none → r.role_assignments ≠ [] →
        importOne s r = some (s ++ [update_user ⟨name, none, []⟩
          r.hashed_password r.password r.role_assignments])) ∧
    (findUser s name = none → r.role_assignments = [] →
        importOne s r = some s) := by
  refine ⟨?_, ?_, ?_, ?_⟩
  · intro u hu
    simp [importOne, hname, hvalid, hu]
  · intro u hp
    unfold update_user
    cases r.password <;> simp
  · intro hnone hne
    have hlen : 0 < r.role_assignments.length := List.length_pos.mpr hne
    simp [importOne, hname, hvalid, hnone, hlen]
  · intro hnone hnil
    simp [importOne, hname, hvalid, hnone, hnil]

/-- Witness for claim C4 at a concrete input. -/
theorem C4_import_record_behavior_witness :
    (∀ u, findUser [] "bob" = some u →
        importOne [] ⟨some "bob", true, none, some "hash1", [exGlobal]⟩ =
          some (replaceUser [] "bob"
            (update_user u (some "hash1") none [exGlobal]))) ∧
    (∀ (u : User) (hp : String),
        (update_user u (some hp) none [exGlobal]).password = some hp) ∧
    (findUser [] "bob" = none → [exGlobal] ≠ [] →
        importOne [] ⟨some "bob", true, none, some "hash1", [exGlobal]⟩ =
          some ([] ++ [update_user ⟨"bob", none, []⟩
            (some "hash1") none [exGlobal]])) ∧
    (findUser [] "bob" = none → [exGlobal] = [] →
        importOne [] ⟨some "bob", true, none, some "hash1", [exGlobal]⟩
          = some []) :=
  C4_import_record_behavior [] ⟨some "bob", true, none, some "hash1", [exGlobal]⟩
    "bob" rfl rfl

/-- Claim C6 counterexample: a batch whose first record lacks the username
key aborts before the try block (`KeyError`), so the remaining good record
is never imported — the store stays empty and the abort flag is set —
although on its own the good record imports fine.  A single malformed
record CAN abort the batch. -/
theorem C6_counterexample_missing_username_aborts :
    _import_users [] [⟨none, true, none, none, []⟩,
        ⟨some "alice", true, none, none, [exGlobal]⟩] = ([], true) ∧
    _import_users [] [⟨some "alice", true, none, none, [exGlobal]⟩] =
      ([⟨"alice", none, [exGlobal]⟩], false) := by
  constructor
  · rfl
  · rfl

/-- Claim C6 (amended): error handling is per-record exactly for schema
validation failures: a record with a present username that fails
`UserPatchSchema` validation is logged and skipped, every other record of
the batch is processed as if it were absent; but a record missing the
username key (read before the try block) raises and aborts the rest of the
batch. -/
theorem C6_schema_invalid_record_skipped (s : UserStore)
    (pre rest : List SerializedUser) (r : SerializedUser)
    (name : String) (hname : r.username = some name)
    (hinvalid : r.schema_valid = false) :
    _import_users s (pre ++ r :: rest) = _import_users s (pre ++ rest) := by
  induction pre generalizing s with
  | nil =>
      rw [List.nil_append, List.nil_append]
      have hskip : importOne s r = some s := by
        simp [importOne, hname, hinvalid]
      simp only [_import_users, hskip]
  | cons p pre' ih =>
      rw [List.cons_append, List.cons_append]
      simp only [_import_users]
      cases hio : importOne s p with
      | none => rfl
      | some s' => exact ih s'

/-- Witness for claim C6 at a concrete input. -/
theorem C6_schema_invalid_record_skipped_witness :
    _import_users [] ([⟨some "alice", true, none, none, [exGlobal]⟩] ++
        ⟨some "carl", false, none, none, []⟩ ::
          [⟨some "dana", true, none, none, [exGlobal]⟩]) =
      _import_users [] ([⟨some "alice", true, none, none, [exGlobal]⟩] ++
        [⟨some "dana", true, none, none, [exGlobal]⟩]) :=
  C6_schema_invalid_record_skipped [] [⟨some "alice", true, none, none, [exGlobal]⟩]
    [⟨some "dana", true, none, none, [exGlobal]⟩]
    ⟨some "carl", false, none, none, []⟩ "carl" rfl rfl

/-! ## Claim C10: `copy`-based filtering does not mutate the original -/

theorem heapGet_cons_self (h : Heap) (nr : Nat) (v : User) :
    heapGet ((nr, v) :: h) nr = some v := by
  simp [heapGet, List.find?_cons]

theorem heapGet_cons_ne (h : Heap) (nr r : Nat) (v : User) (hne : nr ≠ r) :
    heapGet ((nr, v) :: h) r = heapGet h r := by
  unfold heapGet
  rw [List.find?_cons]
  have : ((nr, v).1 == r) = false := by
    simp [hne]
  rw [this]

theorem le_foldr_max_of_mem (n : Nat) (l : List Nat) (hn : n ∈ l) :
    n ≤ l.foldr max 0 := by
  induction l with
  | nil => cases hn
  | cons a t ih =>
      rw [List.foldr_cons]
      cases hn with
      | head => exact Nat.le_max_left _ _
      | tail _ ht => exact Nat.le_trans (ih ht) (Nat.le_max_right _ _)

theorem lt_freshRef_of_mem (h : Heap) (p : Nat × User) (hp : p ∈ h) :
    p.1 < freshRef h := by
  unfold freshRef
  have : p.1 ∈ h.map Prod.fst := List.mem_map_of_mem Prod.fst hp
  exact Nat.lt_succ_of_le (le_foldr_max_of_mem p.1 (h.map Prod.fst) this)

theorem heapGet_some_mem (h : Heap) (r : Nat) (u : User)
    (hu : heapGet h r = some u) : (r, u) ∈ h := by
  unfold heapGet at hu
  cases hf : h.find? (fun p => p.1 == r) with
  | none => rw [hf] at hu; cases hu
  | some p =>
      rw [hf] at hu
      have hmem := List.mem_of_find?_eq_some hf
      have hpred := List.find?_some hf
      have h1 : p.1 = r := by simpa using hpred
      have h2 : p.2 = u := by cases hu; rfl
      have : p = (r, u) := by
        cases p
        simp_all
      rw [this] at hmem
      exact hmem

/-- Claim C10 (confirmed): filtering a live user object for a garden leaves
the original object untouched (the function copies, then rebinds the copy's
`role_assignments`), the returned object carries the filtered assignments,
and filtering the same original reference again for another garden starts
from the full, unfiltered assignment set. -/
theorem C10_filter_does_not_mutate (h : Heap) (r : Nat) (u : User)
    (g1 g2 : Garden) (hu : heapGet h r = some u) :
    heapGet (filterOnHeap h r g1).1 r = some u ∧
    heapGet (filterOnHeap h r g1).1 (filterOnHeap h r g1).2 =
      some (_filter_role_assigments_by_garden u g1) ∧
    heapGet (filterOnHeap (filterOnHeap h r g1).1 r g2).1
        (filterOnHeap (filterOnHeap h r g1).1 r g2).2 =
      some (_filter_role_assigments_by_garden u g2) := by
  have hne : freshRef h ≠ r := by
    intro he
    have := lt_freshRef_of_mem h (r, u) (heapGet_some_mem h r u hu)
    rw [he] at this
    exact Nat.lt_irrefl r this
  have h1 : filterOnHeap h r g1 =
      ((freshRef h, _filter_role_assigments_by_garden u g1) :: h, freshRef h) := by
    simp [filterOnHeap, hu]
  rw [h1]
  have hg : heapGet ((freshRef h, _filter_role_assigments_by_garden u g1) :: h) r
      = some u := by
    rw [heapGet_cons_ne _ _ _ _ hne]
    exact hu
  refine ⟨hg, heapGet_cons_self _ _ _, ?_⟩
  have h2 : filterOnHeap
        ((freshRef h, _filter_role_assigments_by_garden u g1) :: h) r g2 =
      ((freshRef ((freshRef h, _filter_role_assigments_by_garden u g1) :: h),
          _filter_role_assigments_by_garden u g2) ::
            ((freshRef h, _filter_role_assigments_by_garden u g1) :: h),
        freshRef ((freshRef h, _filter_role_assigments_by_garden u g1) :: h)) := by
    simp [filterOnHeap, hg]
  rw [h2]
  exact heapGet_cons_self _ _ _

/-- Witness for claim C10 at a concrete input. -/
theorem C10_filter_does_not_mutate_witness :
    heapGet (filterOnHeap [(0, ⟨"eve", none, [exGlobal, exGardenB]⟩)] 0
        ⟨"g1", ["ns1"]⟩).1 0 = some ⟨"eve", none, [exGlobal, exGardenB]⟩ ∧
    heapGet (filterOnHeap [(0, ⟨"eve", none, [exGlobal, exGardenB]⟩)] 0
          ⟨"g1", ["ns1"]⟩).1
        (filterOnHeap [(0, ⟨"eve", none, [exGlobal, exGardenB]⟩)] 0
          ⟨"g1", ["ns1"]⟩).2 =
      some (_filter_role_assigments_by_garden
        ⟨"eve", none, [exGlobal, exGardenB]⟩ ⟨"g1", ["ns1"]⟩) ∧
    heapGet (filterOnHeap (filterOnHeap [(0, ⟨"eve", none, [exGlobal, exGardenB]⟩)]
          0 ⟨"g1", ["ns1"]⟩).1 0 ⟨"g2", ["b"]⟩).1
        (filterOnHeap (filterOnHeap [(0, ⟨"eve", none, [exGlobal, exGardenB]⟩)]
          0 ⟨"g1", ["ns1"]⟩).1 0 ⟨"g2", ["b"]⟩).2 =
      some (_filter_role_assigments_by_garden
        ⟨"eve", none, [exGlobal, exGardenB]⟩ ⟨"g2", ["b"]⟩) :=
  C10_filter_does_not_mutate [(0, ⟨"eve", none, [exGlobal, exGardenB]⟩)] 0
    ⟨"eve", none, [exGlobal, exGardenB]⟩ ⟨"g1", ["ns1"]⟩ ⟨"g2", ["b"]⟩ (by decide)

/-! ## Claim C3: idempotence of `user_sync` -/

/-- The stored users carrying the given username. -/
def nameEntries (s : UserStore) (name : String) : List User :=
  s.filter (fun v => v.username == name)

theorem update_user_username (u : User) (hp pw : Option String)
    (ras : List RoleAssignment) :
    (update_user u hp pw ras).username = u.username := by
  unfold update_user
  cases pw <;> cases hp <;> simp

theorem update_user_idem (u : User) (hp pw : Option String)
    (ras : List RoleAssignment) :
    update_user (update_user u hp pw ras) hp pw ras = update_user u hp pw ras := by
  unfold update_user
  cases pw <;> cases hp <;> simp

theorem findUser_eq_head (s : UserStore) (name : String) :
    findUser s name = (nameEntries s name).head? := by
  induction s with
  | nil => rfl
  | cons v t ih =>
      by_cases hb : (v.username == name) = true
      · have h1 : findUser (v :: t) name = some v := List.find?_cons_of_pos t hb
        have h2 : nameEntries (v :: t) name = v :: nameEntries t name :=
          List.filter_cons_of_pos hb
        rw [h1, h2]
        rfl
      · have h1 : findUser (v :: t) name = findUser t name :=
          List.find?_cons_of_neg t hb
        have h2 : nameEntries (v :: t) name = nameEntries t name :=
          List.filter_cons_of_neg hb
        rw [h1, h2]
        exact ih

theorem findUser_some_username (s : UserStore) (name : String) (u : User)
    (hu : findUser s name = some u) : u.username = name := by
  have := List.find?_some hu
  simpa using this

theorem mem_nameEntries_iff (s : UserStore) (name : String) (v : User) :
    v ∈ nameEntries s name ↔ v ∈ s ∧ v.username = name := by
  simp [nameEntries, List.mem_filter]

theorem nameEntries_append (s t : UserStore) (name : String) :
    nameEntries (s ++ t) name = nameEntries s name ++ nameEntries t name := by
  simp [nameEntries]

theorem replaceUser_cons (v : User) (t : UserStore) (name : String) (u : User) :
    replaceUser (v :: t) name u =
      (if (v.username == name) = true then u else v) :: replaceUser t name u := by
  rfl

theorem replaceUser_nameEntries_eq (s : UserStore) (name : String) (u : User)
    (hu : u.username = name) :
    nameEntries (replaceUser s name u) name =
      (nameEntries s name).map (fun _ => u) := by
  have hub : (u.username == name) = true := by simp [hu]
  induction s with
  | nil => rfl
  | cons v t ih =>
      rw [replaceUser_cons]
      by_cases hb : (v.username == name) = true
      · rw [if_pos hb]
        have h1 : nameEntries (u :: replaceUser t name u) name =
            u :: nameEntries (replaceUser t name u) name :=
          List.filter_cons_of_pos hub
        have h2 : nameEntries (v :: t) name = v :: nameEntries t name :=
          List.filter_cons_of_pos hb
        rw [h1, h2, List.map_cons]
        exact congrArg (u :: ·) ih
      · rw [if_neg hb]
        have h1 : nameEntries (v :: replaceUser t name u) name =
            nameEntries (replaceUser t name u) name :=
          List.filter_cons_of_neg hb
        have h2 : nameEntries (v :: t) name = nameEntries t name :=
          List.filter_cons_of_neg hb
        rw [h1, h2]
        exact ih

theorem replaceUser_nameEntries_ne (s : UserStore) (name n2 : String) (u : User)
    (hne : n2 ≠ name) (hu : u.username = n2) :
    nameEntries (replaceUser s n2 u) name = nameEntries s name := by
  have hub : ¬(u.username == name) = true := by
    simp [hu]
    exact hne
  induction s with
  | nil => rfl
  | cons v t ih =>
      rw [replaceUser_cons]
      by_cases hb : (v.username == n2) = true
      · have hvn : v.username = n2 := by simpa using hb
        have hvb : ¬(v.username == name) = true := by
          simp [hvn]
          exact hne
        rw [if_pos hb]
        have h1 : nameEntries (u :: replaceUser t n2 u) name =
            nameEntries (replaceUser t n2 u) name :=
          List.filter_cons_of_neg hub
        have h2 : nameEntries (v :: t) name = nameEntries t name :=
          List.filter_cons_of_neg hvb
        rw [h1, h2]
        exact ih
      · rw [if_neg hb]
        by_cases hc : (v.username == name) = true
        · have h1 : nameEntries (v :: replaceUser t n2 u) name =
              v :: nameEntries (replaceUser t n2 u) name :=
            List.filter_cons_of_pos hc
          have h2 : nameEntries (v :: t) name = v :: nameEntries t name :=
            List.filter_cons_of_pos hc
          rw [h1, h2]
          exact congrArg (v :: ·) ih
        · have h1 : nameEntries (v :: replaceUser t n2 u) name =
              nameEntries (replaceUser t n2 u) name :=
            List.filter_cons_of_neg hc
          have h2 : nameEntries (v :: t) name = nameEntries t name :=
            List.filter_cons_of_neg hc
          rw [h1, h2]
          exact ih

theorem replaceUser_self (s : UserStore) (name : String) (u : User)
    (hall : ∀ v ∈ s, v.username = name → v = u) :
    replaceUser s name u = s := by
  induction s with
  | nil => rfl
  | cons v t ih =>
      rw [replaceUser_cons]
      have htail : replaceUser t name u = t :=
        ih (fun w hw hwn => hall w (List.mem_cons_of_mem v hw) hwn)
      by_cases hb : (v.username == name) = true
      · have hv : v = u := hall v (List.mem_cons_self v t) (by simpa using hb)
        rw [if_pos hb, htail, ← hv]
      · rw [if_neg hb, htail]

theorem importOne_invalid (s : UserStore) (r : SerializedUser) (name : String)
    (hname : r.username = some name) (hv : r.schema_valid = false) :
    importOne s r = some s := by
  simp [importOne, hname, hv]

theorem importOne_found (s : UserStore) (r : SerializedUser) (name : String)
    (u : User) (hname : r.username = some name) (hv : r.schema_valid = true)
    (hu : findUser s name = some u) :
    importOne s r = some (replaceUser s name
      (update_user u r.hashed_password r.password r.role_assignments)) := by
  simp [importOne, hname, hv, hu]

theorem importOne_create (s : UserStore) (r : SerializedUser) (name : String)
    (hname : r.username = some name) (hv : r.schema_valid = true)
    (hu : findUser s name = none) (hne : r.role_assignments ≠ []) :
    importOne s r = some (s ++
      [update_user ⟨name, none, []⟩ r.hashed_password r.password
        r.role_assignments]) := by
  have hlen : 0 < r.role_assignments.length := List.length_pos.mpr hne
  simp [importOne, hname, hv, hu, hlen]

theorem importOne_skip (s : UserStore) (r : SerializedUser) (name : String)
    (hname : r.username = some name) (hv : r.schema_valid = true)
    (hu : findUser s name = none) (hnil : r.role_assignments = []) :
    importOne s r = some s := by
  simp [importOne, hname, hv, hu, hnil]

theorem nameEntries_nil_of_findUser_none (s : UserStore) (name : String)
    (hu : findUser s name = none) : nameEntries s name = [] := by
  have h := findUser_eq_head s name
  rw [hu] at h
  exact List.head?_eq_none_iff.mp h.symm

theorem nameEntries_singleton_self (u : User) (name : String)
    (hu : u.username = name) : nameEntries [u] name = [u] := by
  have hb : (u.username == name) = true := by simp [hu]
  unfold nameEntries
  rw [@List.filter_cons_of_pos User (fun v => v.username == name) u [] hb]
  rfl

theorem nameEntries_singleton_other (u : User) (name : String)
    (hu : u.username ≠ name) : nameEntries [u] name = [] := by
  have hb : ¬(u.username == name) = true := by
    simp
    exact hu
  unfold nameEntries
  rw [@List.filter_cons_of_neg User (fun v => v.username == name) u [] hb]
  rfl

theorem importOne_preserves_nameEntries (s : UserStore) (r : SerializedUser)
    (name n2 : String) (hname : r.username = some n2) (hne : n2 ≠ name) :
    ∃ s2, importOne s r = some s2 ∧ nameEntries s2 name = nameEntries s name := by
  by_cases hv : r.schema_valid = true
  · cases hu : findUser s n2 with
    | some u =>
        refine ⟨_, importOne_found s r n2 u hname hv hu, ?_⟩
        apply replaceUser_nameEntries_ne
        · exact hne
        · rw [update_user_username]
          exact findUser_some_username s n2 u hu
    | none =>
        by_cases hnil : r.role_assignments = []
        · exact ⟨s, importOne_skip s r n2 hname hv hu hnil, rfl⟩
        · refine ⟨_, importOne_create s r n2 hname hv hu hnil, ?_⟩
          rw [nameEntries_append]
          rw [nameEntries_singleton_other _ name ?_, List.append_nil]
          rw [update_user_username]
          exact hne
  · have hvf : r.schema_valid = false := by
      cases hvv : r.schema_valid
      · rfl
      · exact absurd hvv hv
    exact ⟨s, importOne_invalid s r n2 hname hvf, rfl⟩

theorem import_users_preserves_nameEntries (rs : List SerializedUser)
    (name : String) (hnot : name ∉ rs.filterMap SerializedUser.username) :
    ∀ s, nameEntries (_import_users s rs).1 name = nameEntries s name := by
  induction rs with
  | nil => intro s; rfl
  | cons r rs2 ih =>
      intro s
      cases hname : r.username with
      | none =>
          have hio : importOne s r = none := by simp [importOne, hname]
          simp only [_import_users, hio]
      | some n2 =>
          have hmem : n2 ∈ (r :: rs2).filterMap SerializedUser.username := by
            rw [List.filterMap_cons, hname]
            exact List.mem_cons_self _ _
          have hne : n2 ≠ name := fun he => hnot (he ▸ hmem)
          have hnot2 : name ∉ rs2.filterMap SerializedUser.username := by
            intro hm
            apply hnot
            rw [List.filterMap_cons, hname]
            exact List.mem_cons_of_mem _ hm
          obtain ⟨s2, hio, hpr⟩ :=
            importOne_preserves_nameEntries s r name n2 hname hne
          simp only [_import_users, hio]
          rw [ih hnot2 s2, hpr]

theorem importOne_stable (s s1 s2 : UserStore) (r : SerializedUser)
    (name : String) (hname : r.username = some name)
    (hio : importOne s r = some s1)
    (hpres : nameEntries s2 name = nameEntries s1 name) :
    importOne s2 r = some s2 := by
  by_cases hv : r.schema_valid = true
  · cases hu : findUser s name with
    | some u =>
        have hs1 : s1 = replaceUser s name
            (update_user u r.hashed_password r.password r.role_assignments) := by
          have h := importOne_found s r name u hname hv hu
          rw [h] at hio
          exact (Option.some.inj hio).symm
        have huname : (update_user u r.hashed_password r.password
            r.role_assignments).username = name := by
          rw [update_user_username]
          exact findUser_some_username s name u hu
        have hent1 : nameEntries s1 name = (nameEntries s name).map
            (fun _ => update_user u r.hashed_password r.password
              r.role_assignments) := by
          rw [hs1]
          exact replaceUser_nameEntries_eq s name _ huname
        have hent2 : nameEntries s2 name = (nameEntries s name).map
            (fun _ => update_user u r.hashed_password r.password
              r.role_assignments) :=
          hpres.trans hent1
        have hfind2 : findUser s2 name = some (update_user u r.hashed_password
            r.password r.role_assignments) := by
          rw [findUser_eq_head, hent2, List.head?_map, ← findUser_eq_head, hu]
          rfl
        have hstep := importOne_found s2 r name _ hname hv hfind2
        rw [hstep, update_user_idem]
        have hrepl : replaceUser s2 name (update_user u r.hashed_password
            r.password r.role_assignments) = s2 := by
          apply replaceUser_self
          intro v hvmem hvname
          have hvm : v ∈ nameEntries s2 name :=
            (mem_nameEntries_iff s2 name v).mpr ⟨hvmem, hvname⟩
          rw [hent2] at hvm
          obtain ⟨w, _, hw⟩ := List.mem_map.mp hvm
          exact hw.symm
        rw [hrepl]
    | none =>
        have hent_s : nameEntries s name = [] :=
          nameEntries_nil_of_findUser_none s name hu
        by_cases hnil : r.role_assignments = []
        · have hs1 : s1 = s := by
            have h := importOne_skip s r name hname hv hu hnil
            rw [h] at hio
            exact (Option.some.inj hio).symm
          have hfind2 : findUser s2 name = none := by
            rw [findUser_eq_head, hpres, hs1, hent_s]
            rfl
          exact importOne_skip s2 r name hname hv hfind2 hnil
        · have hs1 : s1 = s ++ [update_user ⟨name, none, []⟩ r.hashed_password
              r.password r.role_assignments] := by
            have h := importOne_create s r name hname hv hu hnil
            rw [h] at hio
            exact (Option.some.inj hio).symm
          have huname : (update_user ⟨name, none, []⟩ r.hashed_password
              r.password r.role_assignments).username = name := by
            rw [update_user_username]
          have hent1 : nameEntries s1 name = [update_user ⟨name, none, []⟩
              r.hashed_password r.password r.role_assignments] := by
            rw [hs1, nameEntries_append, hent_s, List.nil_append]
            exact nameEntries_singleton_self _ name huname
          have hent2 := hpres.trans hent1
          have hfind2 : findUser s2 name = some (update_user ⟨name, none, []⟩
              r.hashed_password r.password r.role_assignments) := by
            rw [findUser_eq_head, hent2]
            rfl
          have hstep := importOne_found s2 r name _ hname hv hfind2
          rw [hstep, update_user_idem]
          have hrepl : replaceUser s2 name (update_user ⟨name, none, []⟩
              r.hashed_password r.password r.role_assignments) = s2 := by
            apply replaceUser_self
            intro v hvmem hvname
            have hvm : v ∈ nameEntries s2 name :=
              (mem_nameEntries_iff s2 name v).mpr ⟨hvmem, hvname⟩
            rw [hent2] at hvm
            simpa using hvm
          rw [hrepl]
  · have hvf : r.schema_valid = false := by
      cases hvv : r.schema_valid
      · rfl
      · exact absurd hvv hv
    exact importOne_invalid s2 r name hname hvf

theorem importOne_of_username_none (s : UserStore) (r : SerializedUser)
    (hname : r.username = none) : importOne s r = none := by
  simp [importOne, hname]

theorem import_users_idem (rs : List SerializedUser)
    (hnodup : (rs.filterMap SerializedUser.username).Nodup) :
    ∀ s, _import_users (_import_users s rs).1 rs = _import_users s rs := by
  induction rs with
  | nil => intro s; rfl
  | cons r rs2 ih =>
      intro s
      cases hname : r.username with
      | none =>
          have hio : importOne s r = none := importOne_of_username_none s r hname
          simp only [_import_users, hio]
      | some name =>
          have hnd : name ∉ rs2.filterMap SerializedUser.username ∧
              (rs2.filterMap SerializedUser.username).Nodup := by
            rw [List.filterMap_cons, hname] at hnodup
            exact List.nodup_cons.mp hnodup
          cases hio : importOne s r with
          | none =>
              exfalso
              by_cases hv : r.schema_valid = true
              · cases hu : findUser s name with
                | some u =>
                    rw [importOne_found s r name u hname hv hu] at hio
                    cases hio
                | none =>
                    by_cases hnil : r.role_assignments = []
                    · rw [importOne_skip s r name hname hv hu hnil] at hio
                      cases hio
                    · rw [importOne_create s r name hname hv hu hnil] at hio
                      cases hio
              · have hvf : r.schema_valid = false := by
                  cases hvv : r.schema_valid
                  · rfl
                  · exact absurd hvv hv
                rw [importOne_invalid s r name hname hvf] at hio
                cases hio
          | some s1 =>
              have hstep1 : _import_users s (r :: rs2) = _import_users s1 rs2 := by
                simp only [_import_users, hio]
              have hpres : nameEntries (_import_users s1 rs2).1 name =
                  nameEntries s1 name :=
                import_users_preserves_nameEntries rs2 name hnd.1 s1
              have hio2 : importOne (_import_users s1 rs2).1 r =
                  some (_import_users s1 rs2).1 :=
                importOne_stable s s1 (_import_users s1 rs2).1 r name hname hio
                  hpres
              rw [hstep1]
              have hstep2 : _import_users (_import_users s1 rs2).1 (r :: rs2) =
                  _import_users (_import_users s1 rs2).1 rs2 := by
                simp only [_import_users, hio2]
              rw [hstep2]
              exact ih hnd.2 s1

/-- Claim C3 counterexample: with a payload containing two records for the
same username — first a record with empty role assignments and a pre-hashed
credential, then a record with a non-empty assignment set — the first pass
skips the first record (no user yet, nothing to grant) and creates the user
from the second, while the second pass applies BOTH records to the
now-existing user; the stored state after the second application differs
(the credential appears), so `user_sync` is not idempotent for every
payload. -/
theorem C3_counterexample_duplicate_usernames :
    user_sync (user_sync ⟨[], []⟩
        [⟨some "amy", true, none, some "h", []⟩,
          ⟨some "amy", true, none, none, [exGlobal]⟩]).1
      [⟨some "amy", true, none, some "h", []⟩,
        ⟨some "amy", true, none, none, [exGlobal]⟩] ≠
    user_sync ⟨[], []⟩
      [⟨some "amy", true, none, some "h", []⟩,
        ⟨some "amy", true, none, none, [exGlobal]⟩] := by
  decide

/-- Claim C3 (amended): for every serialized payload whose present usernames
are pairwise distinct — which is what `UserSyncSchema` produces when
serializing a user collection — applying `user_sync` twice yields exactly
the same stored User and RemoteUser state as applying it once (no duplicated
users or assignments), and the import leaves RemoteUser state untouched. -/
theorem C3_user_sync_idempotent (db : DbState)
    (serialized_users : List SerializedUser)
    (hnodup : (serialized_users.filterMap SerializedUser.username).Nodup) :
    user_sync (user_sync db serialized_users).1 serialized_users =
      user_sync db serialized_users ∧
    (user_sync db serialized_users).1.remote_users = db.remote_users := by
  constructor
  · have h := import_users_idem serialized_users hnodup db.users
    unfold user_sync
    simp [h]
  · rfl

/-- Witness for claim C3 at a concrete input. -/
theorem C3_user_sync_idempotent_witness :
    user_sync (user_sync ⟨[], []⟩
        [⟨some "amy", true, none, none, [exGlobal]⟩]).1
      [⟨some "amy", true, none, none, [exGlobal]⟩] =
      user_sync ⟨[], []⟩ [⟨some "amy", true, none, none, [exGlobal]⟩] ∧
    (user_sync ⟨[], []⟩
        [⟨some "amy", true, none, none, [exGlobal]⟩]).1.remote_users =
      (⟨[], []⟩ : DbState).remote_users :=
  C3_user_sync_idempotent ⟨[], []⟩ [⟨some "amy", true, none, none, [exGlobal]⟩]
    (by decide)
